import Mathlib

/-!
Shallow embedding of the pod status utility module (`pkg/util/pod.go`) of
the kapacity repository, together with theorems settling the spec claims.

Modelling decisions:
* Go string-typed enums (`PodPhase`, `PodConditionType`, `ConditionStatus`)
  are Lean `String`s with the same named constants.
* `metav1.Time` instants are `Nat`; the nullable pointer `*metav1.Time`
  (the deletion timestamp) is `Option Nat`, and `(*Time).IsZero` returns
  true on the nil pointer or the zero instant.
* `metav1.Now()` is modelled by an explicit `now : Nat` parameter.
* A Go slice that the source explicitly compares against nil
  (`status.Conditions`) is `Option (List PodCondition)`, `none` being the
  nil slice; `append` on a nil slice yields a non-nil one-element slice.
* Functions that mutate through pointers are written in state-passing
  style: they return the updated record(s) together with the original
  boolean result.  For each function taking a nullable pointer, a `Ptr`
  wrapper over `Option` is given in which `none` output models a Go
  nil-pointer-dereference panic (a fault); the wrapper returns `none`
  exactly on the inputs where the Go code dereferences a nil pointer.
-/

/-- `corev1.PodPhase` constant `PodRunning`. -/
def PodRunning : String := "Running"

/-- `corev1.PodPhase` constant `PodSucceeded`. -/
def PodSucceeded : String := "Succeeded"

/-- `corev1.PodPhase` constant `PodFailed`. -/
def PodFailed : String := "Failed"

/-- `corev1.PodConditionType` constant `PodReady`. -/
def PodReady : String := "Ready"

/-- `corev1.ConditionStatus` constant `ConditionTrue`. -/
def ConditionTrue : String := "True"

/-- `(*metav1.Time).IsZero`: true on the nil pointer or the zero instant. -/
def timeIsZero : Option Nat → Bool
  | none => true
  | some t => t == 0

/-- `corev1.PodCondition`: a structured status flag attached to a pod. -/
structure PodCondition where
  type : String
  status : String
  lastProbeTime : Nat
  lastTransitionTime : Nat
  reason : String
  message : String
  deriving Repr, DecidableEq

/-- `corev1.PodReadinessGate`: wraps a single condition-type key. -/
structure PodReadinessGate where
  conditionType : String
  deriving Repr, DecidableEq

/-- `corev1.PodStatus` (the fields this module touches).  `conditions`
is `none` when the Go slice is nil. -/
structure PodStatus where
  phase : String
  conditions : Option (List PodCondition)
  deriving Repr, DecidableEq

/-- `corev1.PodSpec` (the fields this module touches). -/
structure PodSpec where
  readinessGates : List PodReadinessGate
  deriving Repr, DecidableEq

/-- `corev1.Pod` (the fields this module touches).  `deletionTimestamp`
is the nullable `*metav1.Time` of the object metadata. -/
structure Pod where
  name : String
  deletionTimestamp : Option Nat
  status : PodStatus
  deriving Repr, DecidableEq

/-- `GetPodNames`: generate a list of pod names from a list of pod objects. -/
def GetPodNames (pods : List Pod) : List String :=
  pods.map (fun pod => pod.name)

/-- `IsPodRunning`: the pod's phase is running and it is not being deleted. -/
def IsPodRunning (pod : Pod) : Bool :=
  timeIsZero pod.deletionTimestamp && (pod.status.phase == PodRunning)

/-- `IsPodActive`: the pod has not terminated. -/
def IsPodActive (pod : Pod) : Bool :=
  (pod.status.phase != PodSucceeded) &&
  (pod.status.phase != PodFailed) &&
  timeIsZero pod.deletionTimestamp

/-- The indexed scan of `GetPodConditionFromList`'s `for` loop, carrying
the running index `i`. -/
def findCondAux (conditionType : String) : List PodCondition → Nat → Int × Option PodCondition
  | [], _ => (-1, none)
  | c :: rest, i =>
    if c.type == conditionType then ((i : Int), some c)
    else findCondAux conditionType rest (i + 1)

/-- `GetPodConditionFromList`: extract the provided condition from the given
list of conditions; returns -1 and the absent sentinel if not present. -/
def GetPodConditionFromList (conditions : Option (List PodCondition))
    (conditionType : String) : Int × Option PodCondition :=
  match conditions with
  | none => (-1, none)
  | some l => findCondAux conditionType l 0

/-- `GetPodCondition`: extract the provided condition from the given status;
returns -1 and the absent sentinel if the status is nil or not present. -/
def GetPodCondition (status : Option PodStatus) (conditionType : String) :
    Int × Option PodCondition :=
  match status with
  | none => (-1, none)
  | some s => GetPodConditionFromList s.conditions conditionType

/-- `GetPodReadyCondition`: the pod ready condition from the given status,
or the absent sentinel. -/
def GetPodReadyCondition (status : PodStatus) : Option PodCondition :=
  (GetPodCondition (some status) PodReady).2

/-- `IsPodReadyConditionTrue`: true if a pod status says ready. -/
def IsPodReadyConditionTrue (status : PodStatus) : Bool :=
  match GetPodReadyCondition status with
  | some condition => condition.status == ConditionTrue
  | none => false

/-- `IsPodReady`: true if a pod is ready. -/
def IsPodReady (pod : Pod) : Bool :=
  IsPodReadyConditionTrue pod.status

/-- Go `append` on the nullable condition slice. -/
def appendCondition (conditions : Option (List PodCondition)) (c : PodCondition) :
    Option (List PodCondition) :=
  some (conditions.getD [] ++ [c])

/-- Go slice element assignment `status.Conditions[i] = c`. -/
def setConditionAt (conditions : Option (List PodCondition)) (i : Int)
    (c : PodCondition) : Option (List PodCondition) :=
  match conditions with
  | none => none
  | some l => some (l.set i.toNat c)

/-- `UpdatePodCondition` on a non-nil status, in state-passing style:
returns the updated status, the (in-place mutated) condition argument, and
the changed flag.  `now` stands for `metav1.Now()`. -/
def UpdatePodCondition (now : Nat) (status : PodStatus) (condition : PodCondition) :
    PodStatus × PodCondition × Bool :=
  let condition := { condition with lastTransitionTime := now }
  match GetPodCondition (some status) condition.type with
  | (_, none) =>
    ({ status with conditions := appendCondition status.conditions condition },
     condition, true)
  | (conditionIndex, some oldCondition) =>
    let condition :=
      if condition.status == oldCondition.status then
        { condition with lastTransitionTime := oldCondition.lastTransitionTime }
      else condition
    let isEqual := condition.status == oldCondition.status &&
      condition.reason == oldCondition.reason &&
      condition.message == oldCondition.message &&
      condition.lastProbeTime == oldCondition.lastProbeTime &&
      condition.lastTransitionTime == oldCondition.lastTransitionTime
    ({ status with conditions := setConditionAt status.conditions conditionIndex condition },
     condition, !isEqual)

/-- `AddPodCondition` on a non-nil status, in state-passing style:
returns the updated status, the condition argument, and the added flag. -/
def AddPodCondition (now : Nat) (status : PodStatus) (condition : PodCondition) :
    PodStatus × PodCondition × Bool :=
  match (GetPodCondition (some status) condition.type).2 with
  | some _ => (status, condition, false)
  | none =>
    let condition := { condition with lastTransitionTime := now }
    ({ status with conditions := appendCondition status.conditions condition },
     condition, true)

/-- `AddPodReadinessGate`: add the provided condition type to the pod's
readiness gates unless already present. -/
def AddPodReadinessGate (spec : PodSpec) (conditionType : String) : PodSpec × Bool :=
  if spec.readinessGates.any (fun rg => rg.conditionType == conditionType) then
    (spec, false)
  else
    ({ spec with readinessGates := spec.readinessGates ++ [⟨conditionType⟩] }, true)

/-- `UpdatePodCondition` on a nullable status pointer: with a nil status the
Go code reaches `status.Conditions = append(...)` (the lookup reports the
condition absent) and dereferences the nil pointer; `none` models that
panic. -/
def UpdatePodConditionPtr (now : Nat) (status : Option PodStatus)
    (condition : PodCondition) : Option (PodStatus × PodCondition × Bool) :=
  match status with
  | none => none
  | some s => some (UpdatePodCondition now s condition)

/-- `AddPodCondition` on a nullable status pointer: with a nil status the
Go code reaches `status.Conditions = append(...)` and dereferences the nil
pointer; `none` models that panic. -/
def AddPodConditionPtr (now : Nat) (status : Option PodStatus)
    (condition : PodCondition) : Option (PodStatus × PodCondition × Bool) :=
  match status with
  | none => none
  | some s => some (AddPodCondition now s condition)

/-- `IsPodRunning` on a nullable pod pointer: `pod.DeletionTimestamp`
dereferences a nil pod, so `none` models that panic. -/
def IsPodRunningPtr (pod : Option Pod) : Option Bool :=
  pod.map IsPodRunning

/-- `IsPodActive` on a nullable pod pointer. -/
def IsPodActivePtr (pod : Option Pod) : Option Bool :=
  pod.map IsPodActive

/-- `IsPodReady` on a nullable pod pointer. -/
def IsPodReadyPtr (pod : Option Pod) : Option Bool :=
  pod.map IsPodReady

/-- The condition value actually stored/returned by `UpdatePodCondition`
when an old condition of the same type exists: the new condition with its
transition time set to `now`, rolled back to the old transition time when
the tri-state status is unchanged. -/
def updCond (now : Nat) (cond old : PodCondition) : PodCondition :=
  if cond.status == old.status then
    { cond with lastTransitionTime := old.lastTransitionTime }
  else
    { cond with lastTransitionTime := now }

/-- A sample condition used to instantiate theorems with hypotheses. -/
def condA : PodCondition :=
  { type := "Ready", status := "True", lastProbeTime := 0,
    lastTransitionTime := 1, reason := "r", message := "m" }

/-- A sample condition of the same type as `condA` but different status. -/
def condB : PodCondition :=
  { type := "Ready", status := "False", lastProbeTime := 2,
    lastTransitionTime := 3, reason := "s", message := "n" }

/-- A sample status holding `condB`. -/
def stA : PodStatus :=
  { phase := "Running", conditions := some [condB] }

/-- A sample pod. -/
def podA : Pod :=
  { name := "p", deletionTimestamp := none, status := stA }

/-! ## Helper lemmas about the condition scan -/

theorem findCondAux_not_found {ct : String} {l : List PodCondition}
    (h : ∀ c ∈ l, c.type ≠ ct) (n : Nat) :
    findCondAux ct l n = (-1, none) := by
  induction l generalizing n with
  | nil => rfl
  | cons c rest ih =>
    have hc : c.type ≠ ct := h c (List.mem_cons_self c rest)
    simp only [findCondAux, beq_iff_eq, hc, if_false]
    exact ih (fun x hx => h x (List.mem_cons_of_mem c hx)) (n + 1)

theorem findCondAux_none_forall {ct : String} {l : List PodCondition} {n : Nat}
    (h : (findCondAux ct l n).2 = none) : ∀ c ∈ l, c.type ≠ ct := by
  induction l generalizing n with
  | nil => intro c hc; cases hc
  | cons c rest ih =>
    intro x hx
    by_cases hc : c.type = ct
    · simp [findCondAux, hc] at h
    · simp only [findCondAux, beq_iff_eq, hc, if_false] at h
      rcases List.mem_cons.mp hx with h1 | h2
      · subst h1; exact hc
      · exact ih h x h2

theorem findCondAux_found {ct : String} {l : List PodCondition}
    (i : Nat) (h : i < l.length) (hi : (l.get ⟨i, h⟩).type = ct)
    (hmin : ∀ (j : Nat) (hj : j < l.length), j < i → (l.get ⟨j, hj⟩).type ≠ ct)
    (n : Nat) :
    findCondAux ct l n = ((n : Int) + (i : Int), some (l.get ⟨i, h⟩)) := by
  induction l generalizing i n with
  | nil => cases h
  | cons c rest ih =>
    cases i with
    | zero =>
      have hc : c.type = ct := hi
      simp [findCondAux, hc]
    | succ k =>
      have hc : c.type ≠ ct := by
        have := hmin 0 (Nat.succ_le_of_lt (Nat.zero_lt_succ _)) (Nat.zero_lt_succ _)
        simpa using this
      simp only [findCondAux, beq_iff_eq, hc, if_false]
      have hk : k < rest.length := Nat.lt_of_succ_lt_succ h
      have := ih k hk (by simpa using hi)
        (fun j hj hjk => by
          have := hmin (j + 1) (Nat.succ_lt_succ hj) (Nat.succ_lt_succ hjk)
          simpa using this) (n + 1)
      rw [this]
      simp only [Prod.mk.injEq]
      constructor
      · push_cast
        omega
      · rfl

theorem findCondAux_some {ct : String} {l : List PodCondition} {n : Nat}
    {k : Int} {c : PodCondition}
    (h : findCondAux ct l n = (k, some c)) :
    ∃ (m : Nat) (hm : m < l.length), k = ((n + m : Nat) : Int) ∧
      l.get ⟨m, hm⟩ = c ∧ c.type = ct := by
  induction l generalizing n with
  | nil => simp [findCondAux] at h
  | cons d rest ih =>
    by_cases hd : d.type = ct
    · simp only [findCondAux, beq_iff_eq, hd, if_true] at h
      obtain ⟨hk, hc⟩ := Prod.mk.injEq .. ▸ h
      refine ⟨0, Nat.zero_lt_succ _, ?_, ?_, ?_⟩
      · omega
      · simpa using (Option.some.injEq .. ▸ hc)
      · have : d = c := by simpa using (Option.some.injEq .. ▸ hc)
        rw [← this]; exact hd
    · simp only [findCondAux, beq_iff_eq, hd, if_false] at h
      obtain ⟨m, hm, hk, hc, hct⟩ := ih h
      exact ⟨m + 1, Nat.succ_lt_succ hm, by omega, by simpa using hc, hct⟩

theorem getPodCondition_some {st : PodStatus} {ct : String} {i : Int}
    {old : PodCondition} (h : GetPodCondition (some st) ct = (i, some old)) :
    ∃ (l : List PodCondition) (m : Nat) (hm : m < l.length),
      st.conditions = some l ∧ i = (m : Int) ∧ l.get ⟨m, hm⟩ = old ∧
      old.type = ct := by
  have h2 : GetPodConditionFromList st.conditions ct = (i, some old) := h
  cases hc : st.conditions with
  | none =>
    rw [hc] at h2
    have h3 : ((-1 : Int), (none : Option PodCondition)) = (i, some old) := h2
    simp at h3
  | some l =>
    rw [hc] at h2
    have h3 : findCondAux ct l 0 = (i, some old) := h2
    obtain ⟨m, hm, hk, hget, hct⟩ := findCondAux_some h3
    exact ⟨l, m, hm, rfl, by omega, hget, hct⟩

theorem UpdatePodCondition_found {now : Nat} {st : PodStatus}
    {cond old : PodCondition} {i : Int}
    (h : GetPodCondition (some st) cond.type = (i, some old)) :
    UpdatePodCondition now st cond =
      ({ st with conditions := setConditionAt st.conditions i (updCond now cond old) },
       updCond now cond old,
       !((cond.status == old.status) && (cond.reason == old.reason) &&
         (cond.message == old.message) && (cond.lastProbeTime == old.lastProbeTime) &&
         ((updCond now cond old).lastTransitionTime == old.lastTransitionTime))) := by
  dsimp only [UpdatePodCondition]
  rw [h]
  by_cases hs : cond.status = old.status
  · simp [updCond, hs]
  · simp [updCond, hs]

theorem UpdatePodCondition_notfound {now : Nat} {st : PodStatus}
    {cond : PodCondition}
    (h : (GetPodCondition (some st) cond.type).2 = none) :
    UpdatePodCondition now st cond =
      ({ st with conditions :=
          appendCondition st.conditions { cond with lastTransitionTime := now } },
       { cond with lastTransitionTime := now }, true) := by
  dsimp only [UpdatePodCondition]
  rcases hp : GetPodCondition (some st) cond.type with ⟨k, c⟩
  rw [hp] at h
  simp only at h
  subst h
  rfl

theorem updCond_type {now : Nat} {cond old : PodCondition} :
    (updCond now cond old).type = cond.type := by
  unfold updCond
  split <;> rfl

theorem updCond_status {now : Nat} {cond old : PodCondition} :
    (updCond now cond old).status = cond.status := by
  unfold updCond
  split <;> rfl

theorem updCond_reason {now : Nat} {cond old : PodCondition} :
    (updCond now cond old).reason = cond.reason := by
  unfold updCond
  split <;> rfl

theorem updCond_message {now : Nat} {cond old : PodCondition} :
    (updCond now cond old).message = cond.message := by
  unfold updCond
  split <;> rfl

theorem updCond_probe {now : Nat} {cond old : PodCondition} :
    (updCond now cond old).lastProbeTime = cond.lastProbeTime := by
  unfold updCond
  split <;> rfl

theorem updCond_ltt {now : Nat} {cond old : PodCondition} :
    (updCond now cond old).lastTransitionTime =
      if cond.status = old.status then old.lastTransitionTime else now := by
  by_cases h : cond.status = old.status <;> simp [updCond, h]

theorem getPodCondition_none_forall {st : PodStatus} {ct : String}
    (h : (GetPodCondition (some st) ct).2 = none) :
    ∀ c ∈ st.conditions.getD [], c.type ≠ ct := by
  have h2 : (GetPodConditionFromList st.conditions ct).2 = none := h
  cases hc : st.conditions with
  | none => simp [hc]
  | some l =>
    rw [hc] at h2
    have h3 : (findCondAux ct l 0).2 = none := h2
    simpa [hc] using findCondAux_none_forall h3

theorem AddPodCondition_found {now : Nat} {st : PodStatus} {cond old : PodCondition}
    (h : (GetPodCondition (some st) cond.type).2 = some old) :
    AddPodCondition now st cond = (st, cond, false) := by
  dsimp only [AddPodCondition]
  rw [h]

theorem AddPodCondition_notfound {now : Nat} {st : PodStatus} {cond : PodCondition}
    (h : (GetPodCondition (some st) cond.type).2 = none) :
    AddPodCondition now st cond =
      ({ st with conditions :=
          appendCondition st.conditions { cond with lastTransitionTime := now } },
       { cond with lastTransitionTime := now }, true) := by
  dsimp only [AddPodCondition]
  rw [h]

theorem AddPodReadinessGate_found {sp : PodSpec} {ct : String}
    (h : ∃ rg ∈ sp.readinessGates, rg.conditionType = ct) :
    AddPodReadinessGate sp ct = (sp, false) := by
  obtain ⟨rg, hrg, hct⟩ := h
  have ha : sp.readinessGates.any (fun rg => rg.conditionType == ct) = true :=
    List.any_eq_true.mpr ⟨rg, hrg, beq_iff_eq.mpr hct⟩
  simp [AddPodReadinessGate, ha]

theorem AddPodReadinessGate_notfound {sp : PodSpec} {ct : String}
    (h : ∀ rg ∈ sp.readinessGates, rg.conditionType ≠ ct) :
    AddPodReadinessGate sp ct =
      ({ sp with readinessGates := sp.readinessGates ++ [⟨ct⟩] }, true) := by
  have ha : sp.readinessGates.any (fun rg => rg.conditionType == ct) = false := by
    rw [Bool.eq_false_iff]
    intro hc
    obtain ⟨rg, hrg, hct⟩ := List.any_eq_true.mp hc
    exact h rg hrg (beq_iff_eq.mp hct)
  simp [AddPodReadinessGate, ha]

theorem nodup_append_single {α : Type} {xs : List α} {x : α}
    (h : xs.Nodup) (hx : x ∉ xs) : (xs ++ [x]).Nodup := by
  rw [List.nodup_append]
  refine ⟨h, List.nodup_singleton x, ?_⟩
  intro a ha hb
  rw [List.mem_singleton] at hb
  subst hb
  exact hx ha

theorem set_get_self {α : Type} (l : List α) (m : Nat) (hm : m < l.length) :
    l.set m (l.get ⟨m, hm⟩) = l := by
  induction l generalizing m with
  | nil => cases hm
  | cons a rest ih =>
    cases m with
    | zero => rfl
    | succ k =>
      simp only [List.set, List.get]
      rw [ih k (Nat.lt_of_succ_lt_succ hm)]

/-! ## Claim theorems -/

/-- C8: `GetPodNames` returns a sequence of name strings whose length
equals the input length and whose i-th element equals the i-th pod's
name, in the same order; the empty input yields the empty sequence. -/
theorem getPodNames_spec : ∀ (pods : List Pod),
    (GetPodNames pods).length = pods.length ∧
    (∀ (i : Nat) (h : i < pods.length) (h2 : i < (GetPodNames pods).length),
      (GetPodNames pods).get ⟨i, h2⟩ = (pods.get ⟨i, h⟩).name) ∧
    GetPodNames [] = [] := by
  intro pods
  refine ⟨List.length_map .., ?_, rfl⟩
  intro i h h2
  simp [GetPodNames]

/-- Witness for C8 at a concrete one-pod list. -/
theorem getPodNames_spec_witness :
    (GetPodNames [podA]).get ⟨0, by decide⟩ = (([podA] : List Pod).get ⟨0, by decide⟩).name :=
  (getPodNames_spec [podA]).2.1 0 (by decide) (by decide)

/-- C9: `IsPodActive` returns true iff the phase is neither Succeeded nor
Failed and the deletion timestamp is absent or zero; a Succeeded or Failed
pod is never active, and a pod with any other phase and absent/zero
deletion timestamp is active. -/
theorem isPodActive_spec : ∀ (pod : Pod),
    (IsPodActive pod = true ↔
      (pod.status.phase ≠ PodSucceeded ∧ pod.status.phase ≠ PodFailed ∧
       (pod.deletionTimestamp = none ∨ pod.deletionTimestamp = some 0))) ∧
    (pod.status.phase = PodSucceeded ∨ pod.status.phase = PodFailed →
      IsPodActive pod = false) ∧
    (pod.status.phase ≠ PodSucceeded → pod.status.phase ≠ PodFailed →
      pod.deletionTimestamp = none ∨ pod.deletionTimestamp = some 0 →
      IsPodActive pod = true) := by
  intro pod
  have hz : timeIsZero pod.deletionTimestamp = true ↔
      (pod.deletionTimestamp = none ∨ pod.deletionTimestamp = some 0) := by
    cases pod.deletionTimestamp with
    | none => simp [timeIsZero]
    | some t => simp [timeIsZero]
  have hiff : IsPodActive pod = true ↔
      (pod.status.phase ≠ PodSucceeded ∧ pod.status.phase ≠ PodFailed ∧
       (pod.deletionTimestamp = none ∨ pod.deletionTimestamp = some 0)) := by
    rw [← hz]
    simp [IsPodActive, bne_iff_ne, Bool.and_eq_true, and_assoc]
  refine ⟨hiff, ?_, ?_⟩
  · intro h
    rw [Bool.eq_false_iff]
    intro hc
    rcases h with h | h
    · exact (hiff.mp hc).1 h
    · exact (hiff.mp hc).2.1 h
  · intro h1 h2 h3
    exact hiff.mpr ⟨h1, h2, h3⟩

/-- Witness for C9 at a concrete pod. -/
theorem isPodActive_spec_witness :
    IsPodActive podA = true :=
  (isPodActive_spec podA).2.2 (by decide) (by decide) (Or.inl rfl)

/-- C4: the condition lookups return the sentinel pair (-1, none) on a nil
status, a nil condition sequence, or when no entry of the given type
exists; otherwise they return the first entry whose type equals the key,
scanning linearly in order, together with its positional index. -/
theorem getPodCondition_spec : ∀ (st : PodStatus) (l : List PodCondition) (ct : String),
    GetPodCondition none ct = (-1, none) ∧
    GetPodConditionFromList none ct = (-1, none) ∧
    (st.conditions = some l →
      GetPodCondition (some st) ct = GetPodConditionFromList (some l) ct) ∧
    ((∀ c ∈ l, c.type ≠ ct) → GetPodConditionFromList (some l) ct = (-1, none)) ∧
    (∀ (i : Nat) (h : i < l.length), (l.get ⟨i, h⟩).type = ct →
      (∀ (j : Nat) (hj : j < l.length), j < i → (l.get ⟨j, hj⟩).type ≠ ct) →
      GetPodConditionFromList (some l) ct = ((i : Int), some (l.get ⟨i, h⟩))) := by
  intro st l ct
  refine ⟨rfl, rfl, ?_, ?_, ?_⟩
  · intro h
    show GetPodConditionFromList st.conditions ct = _
    rw [h]
  · intro h
    exact findCondAux_not_found h 0
  · intro i h hi hmin
    have := findCondAux_found i h hi hmin 0
    simpa using this

/-- Witness for C4 at a concrete status and list. -/
theorem getPodCondition_spec_witness :
    GetPodConditionFromList (some [condB]) "Ready" =
      (((0 : Nat) : Int), some (([condB] : List PodCondition).get ⟨0, by decide⟩)) :=
  (getPodCondition_spec stA [condB] "Ready").2.2.2.2 0 (by decide) rfl
    (fun j hj hj0 => absurd hj0 (by omega))

/-- C5: `AddPodCondition` returns added=false and leaves the status (its
condition list, length and every entry) unchanged when a condition of the
same type already exists; otherwise it sets the new condition's transition
time to now, appends it, and returns added=true. -/
theorem addPodCondition_spec : ∀ (now : Nat) (st : PodStatus) (cond : PodCondition),
    (∀ (old : PodCondition), (GetPodCondition (some st) cond.type).2 = some old →
      AddPodCondition now st cond = (st, cond, false)) ∧
    ((GetPodCondition (some st) cond.type).2 = none →
      AddPodCondition now st cond =
        ({ st with conditions :=
            appendCondition st.conditions { cond with lastTransitionTime := now } },
         { cond with lastTransitionTime := now }, true)) := by
  intro now st cond
  exact ⟨fun old h => AddPodCondition_found h, fun h => AddPodCondition_notfound h⟩

/-- Witness for C5: adding a condition of an already-present type at a
concrete input leaves the status unchanged. -/
theorem addPodCondition_spec_witness :
    AddPodCondition 7 stA condA = (stA, condA, false) :=
  (addPodCondition_spec 7 stA condA).1 condB rfl

/-- C6: `AddPodReadinessGate` returns added=false and leaves the gate list
unchanged when a gate already wraps the key; otherwise it appends exactly
one new gate wrapping the key at the end and returns added=true. -/
theorem addPodReadinessGate_spec : ∀ (sp : PodSpec) (ct : String),
    ((∃ rg ∈ sp.readinessGates, rg.conditionType = ct) →
      AddPodReadinessGate sp ct = (sp, false)) ∧
    ((∀ rg ∈ sp.readinessGates, rg.conditionType ≠ ct) →
      AddPodReadinessGate sp ct =
        ({ sp with readinessGates := sp.readinessGates ++ [⟨ct⟩] }, true)) := by
  intro sp ct
  exact ⟨fun h => AddPodReadinessGate_found h, fun h => AddPodReadinessGate_notfound h⟩

/-- Witness for C6 at a concrete spec. -/
theorem addPodReadinessGate_spec_witness :
    AddPodReadinessGate ⟨[⟨"G"⟩]⟩ "G" = (⟨[⟨"G"⟩]⟩, false) :=
  (addPodReadinessGate_spec ⟨[⟨"G"⟩]⟩ "G").1 ⟨⟨"G"⟩, by decide, rfl⟩

/-- C1: when a condition of the same type exists, `UpdatePodCondition`
fully replaces the existing entry with the (possibly transition-time
restored) new condition and returns changed=false iff status, reason,
message, probe time and the possibly-restored transition time all equal
the prior entry; a status change always reports changed=true, and a
same-status update that alters reason, message or probe time reports
changed=true even though the stored transition time is rolled back. -/
theorem updatePodCondition_replace_spec :
    ∀ (now : Nat) (st : PodStatus) (cond : PodCondition) (i : Int) (old : PodCondition),
    GetPodCondition (some st) cond.type = (i, some old) →
    ((UpdatePodCondition now st cond).1.conditions =
      setConditionAt st.conditions i (UpdatePodCondition now st cond).2.1) ∧
    ((UpdatePodCondition now st cond).2.2 = false ↔
      ((UpdatePodCondition now st cond).2.1.status = old.status ∧
       (UpdatePodCondition now st cond).2.1.reason = old.reason ∧
       (UpdatePodCondition now st cond).2.1.message = old.message ∧
       (UpdatePodCondition now st cond).2.1.lastProbeTime = old.lastProbeTime ∧
       (UpdatePodCondition now st cond).2.1.lastTransitionTime = old.lastTransitionTime)) ∧
    (cond.status ≠ old.status → (UpdatePodCondition now st cond).2.2 = true) ∧
    (cond.status = old.status →
      (cond.reason ≠ old.reason ∨ cond.message ≠ old.message ∨
       cond.lastProbeTime ≠ old.lastProbeTime) →
      (UpdatePodCondition now st cond).2.2 = true ∧
      (UpdatePodCondition now st cond).2.1.lastTransitionTime = old.lastTransitionTime) := by
  intro now st cond i old h
  rw [UpdatePodCondition_found h]
  refine ⟨rfl, ?_, ?_, ?_⟩
  · by_cases hs : cond.status = old.status
    · simp [updCond_status, updCond_reason, updCond_message, updCond_probe, updCond_ltt, hs,
        and_assoc]
    · simp [updCond_status, updCond_reason, updCond_message, updCond_probe, updCond_ltt, hs]
  · intro hs
    simp [updCond_status, hs]
  · intro hs hdiff
    constructor
    · rcases hdiff with hd | hd | hd <;>
        simp [updCond_status, updCond_reason, updCond_message, updCond_probe, hs, hd]
    · simp [updCond_ltt, hs]

/-- Witness for C1: a same-type update with changed status at a concrete
input reports changed=true. -/
theorem updatePodCondition_replace_spec_witness :
    (UpdatePodCondition 7 stA condA).2.2 = true :=
  ((updatePodCondition_replace_spec 7 stA condA 0 condB rfl).2.2.1 (by decide))

/-- C2: `UpdatePodCondition` preserves the stored transition time exactly
when the tri-state status is unchanged; if no condition of that type
exists the new condition is appended with transition time `now` and
changed=true; if the status differs the stored transition time is `now`
and changed=true. -/
theorem updatePodCondition_ltt_spec :
    ∀ (now : Nat) (st : PodStatus) (cond : PodCondition),
    ((GetPodCondition (some st) cond.type).2 = none →
      (UpdatePodCondition now st cond).1.conditions =
        appendCondition st.conditions { cond with lastTransitionTime := now } ∧
      (UpdatePodCondition now st cond).2.2 = true) ∧
    (∀ (i : Int) (old : PodCondition),
      GetPodCondition (some st) cond.type = (i, some old) →
      ((UpdatePodCondition now st cond).1.conditions =
        setConditionAt st.conditions i (UpdatePodCondition now st cond).2.1) ∧
      (cond.status = old.status →
        (UpdatePodCondition now st cond).2.1.lastTransitionTime = old.lastTransitionTime) ∧
      (cond.status ≠ old.status →
        (UpdatePodCondition now st cond).2.1.lastTransitionTime = now ∧
        (UpdatePodCondition now st cond).2.2 = true)) := by
  intro now st cond
  constructor
  · intro h
    rw [UpdatePodCondition_notfound h]
    exact ⟨rfl, rfl⟩
  · intro i old h
    rw [UpdatePodCondition_found h]
    refine ⟨rfl, ?_, ?_⟩
    · intro hs
      simp [updCond_ltt, hs]
    · intro hs
      refine ⟨by simp [updCond_ltt, hs], ?_⟩
      simp [updCond_status, hs]

/-- Witness for C2: a same-type, same-status update at a concrete input
keeps the old transition time. -/
theorem updatePodCondition_ltt_spec_witness :
    (UpdatePodCondition 7 stA condB).2.1.lastTransitionTime = 3 :=
  (((updatePodCondition_ltt_spec 7 stA condB).2 0 condB rfl).2.1 rfl)

/-- C10: the caller-supplied condition record is mutated in place:
`UpdatePodCondition` always overwrites its transition time (to `now`, then
back to the old entry's time when the status is unchanged), so even a
changed=false call leaves the caller's record equal to the stored entry;
`AddPodCondition` mutates the argument's transition time only in the
branch that appends, leaving it untouched when it returns added=false. -/
theorem conditionArg_mutation_spec :
    ∀ (now : Nat) (st : PodStatus) (cond : PodCondition),
    ((GetPodCondition (some st) cond.type).2 = none →
      (UpdatePodCondition now st cond).2.1 = { cond with lastTransitionTime := now }) ∧
    (∀ (i : Int) (old : PodCondition),
      GetPodCondition (some st) cond.type = (i, some old) →
      ((UpdatePodCondition now st cond).2.1 =
        { cond with lastTransitionTime :=
            if cond.status = old.status then old.lastTransitionTime else now }) ∧
      ((UpdatePodCondition now st cond).1.conditions =
        setConditionAt st.conditions i (UpdatePodCondition now st cond).2.1)) ∧
    (∀ (old : PodCondition), (GetPodCondition (some st) cond.type).2 = some old →
      AddPodCondition now st cond = (st, cond, false)) ∧
    ((GetPodCondition (some st) cond.type).2 = none →
      (AddPodCondition now st cond).2.1 = { cond with lastTransitionTime := now }) := by
  intro now st cond
  refine ⟨?_, ?_, ?_, ?_⟩
  · intro h
    rw [UpdatePodCondition_notfound h]
  · intro i old h
    rw [UpdatePodCondition_found h]
    refine ⟨?_, rfl⟩
    by_cases hs : cond.status = old.status <;> simp [updCond, hs]
  · intro old h
    exact AddPodCondition_found h
  · intro h
    rw [AddPodCondition_notfound h]

/-- Witness for C10: a changed=false update at a concrete input still
rewrites the caller's condition record to the stored entry. -/
theorem conditionArg_mutation_spec_witness :
    (UpdatePodCondition 7 stA condB).2.1 = { condB with lastTransitionTime := 3 } := by
  have := ((conditionArg_mutation_spec 7 stA condB).2.1 0 condB rfl).1
  simpa using this

/-- C7: at most one condition entry per type, and at most one readiness
gate per key, are preserved by `UpdatePodCondition`, `AddPodCondition`
and `AddPodReadinessGate`. -/
theorem uniqueness_invariant_spec :
    ∀ (now : Nat) (st : PodStatus) (cond : PodCondition) (sp : PodSpec) (ct : String),
    (((st.conditions.getD []).map PodCondition.type).Nodup →
      (((UpdatePodCondition now st cond).1.conditions.getD []).map PodCondition.type).Nodup) ∧
    (((st.conditions.getD []).map PodCondition.type).Nodup →
      (((AddPodCondition now st cond).1.conditions.getD []).map PodCondition.type).Nodup) ∧
    ((sp.readinessGates.map PodReadinessGate.conditionType).Nodup →
      ((AddPodReadinessGate sp ct).1.readinessGates.map PodReadinessGate.conditionType).Nodup) := by
  intro now st cond sp ct
  have habs_append : ∀ (c1 : PodCondition),
      (∀ c ∈ st.conditions.getD [], c.type ≠ cond.type) → c1.type = cond.type →
      ((st.conditions.getD []).map PodCondition.type).Nodup →
      (((appendCondition st.conditions c1).getD []).map PodCondition.type).Nodup := by
    intro c1 habs hc1 hnd
    simp only [appendCondition, Option.getD_some, List.map_append, List.map_cons, List.map_nil]
    apply nodup_append_single hnd
    intro hmem
    obtain ⟨c, hc, hcty⟩ := List.mem_map.mp hmem
    exact habs c hc (hc1 ▸ hcty)
  refine ⟨?_, ?_, ?_⟩
  · intro hnd
    rcases hg : GetPodCondition (some st) cond.type with ⟨i, c⟩
    cases c with
    | none =>
      have h2 : (GetPodCondition (some st) cond.type).2 = none := by rw [hg]
      rw [UpdatePodCondition_notfound h2]
      exact habs_append _ (getPodCondition_none_forall h2) rfl hnd
    | some old =>
      have h2 : GetPodCondition (some st) cond.type = (i, some old) := hg
      rw [UpdatePodCondition_found h2]
      obtain ⟨l, m, hm, hcond, him, hget, hct⟩ := getPodCondition_some h2
      subst him
      rw [hcond] at hnd ⊢
      show ((((some (l.set ((m : Int)).toNat (updCond now cond old))) :
          Option (List PodCondition)).getD []).map PodCondition.type).Nodup
      have htn : ((m : Int)).toNat = m := by omega
      rw [htn]
      simp only [Option.getD_some, List.map_set]
      have hmm : m < (l.map PodCondition.type).length := by
        rw [List.length_map]
        exact hm
      have hty : (updCond now cond old).type = (l.map PodCondition.type).get ⟨m, hmm⟩ := by
        rw [List.get_map, hget, updCond_type, hct]
      rw [hty, set_get_self]
      simpa using hnd
  · intro hnd
    cases hc : (GetPodCondition (some st) cond.type).2 with
    | some old =>
      rw [AddPodCondition_found hc]
      exact hnd
    | none =>
      rw [AddPodCondition_notfound hc]
      exact habs_append _ (getPodCondition_none_forall hc) rfl hnd
  · intro hnd
    by_cases h : ∃ rg ∈ sp.readinessGates, rg.conditionType = ct
    · rw [AddPodReadinessGate_found h]
      exact hnd
    · push_neg at h
      rw [AddPodReadinessGate_notfound h]
      simp only [List.map_append, List.map_cons, List.map_nil]
      apply nodup_append_single hnd
      intro hmem
      obtain ⟨rg, hrg, hcty⟩ := List.mem_map.mp hmem
      exact h rg hrg hcty

/-- Witness for C7 at concrete inputs with duplicate-free lists. -/
theorem uniqueness_invariant_spec_witness :
    (((UpdatePodCondition 7 stA condA).1.conditions.getD []).map PodCondition.type).Nodup ∧
    (((AddPodCondition 7 stA condA).1.conditions.getD []).map PodCondition.type).Nodup ∧
    ((AddPodReadinessGate ⟨[⟨"G"⟩]⟩ "H").1.readinessGates.map PodReadinessGate.conditionType).Nodup :=
  ⟨(uniqueness_invariant_spec 7 stA condA ⟨[⟨"G"⟩]⟩ "H").1 (by decide),
   (uniqueness_invariant_spec 7 stA condA ⟨[⟨"G"⟩]⟩ "H").2.1 (by decide),
   (uniqueness_invariant_spec 7 stA condA ⟨[⟨"G"⟩]⟩ "H").2.2 (by decide)⟩

/-- C3 counterexample: the claim says `UpdatePodCondition` and
`AddPodCondition` on an absent (nil) status and the classifiers on an
absent (nil) pod must not fault, but on a nil status the Go code reaches
`status.Conditions = append(...)` and dereferences the nil pointer, and
the classifiers dereference a nil pod immediately; in the embedding the
fault is the `none` result of the pointer wrappers. -/
theorem totality_cex :
    UpdatePodConditionPtr 0 none condA = none ∧
    AddPodConditionPtr 0 none condA = none ∧
    IsPodRunningPtr none = none ∧
    IsPodActivePtr none = none ∧
    IsPodReadyPtr none = none :=
  ⟨rfl, rfl, rfl, rfl, rfl⟩

/-- C3 (amended): the lookup operations tolerate a nil status or nil
condition sequence and return the sentinel, and every operation is total
on non-nil pointer inputs; but the two condition mutators fault on a nil
status and the three classifiers fault on a nil pod. -/
theorem totality_spec :
    ∀ (now : Nat) (c : PodCondition) (s : PodStatus) (p : Pod) (ct : String),
    GetPodCondition none ct = (-1, none) ∧
    GetPodConditionFromList none ct = (-1, none) ∧
    UpdatePodConditionPtr now none c = none ∧
    AddPodConditionPtr now none c = none ∧
    IsPodRunningPtr none = none ∧
    IsPodActivePtr none = none ∧
    IsPodReadyPtr none = none ∧
    (UpdatePodConditionPtr now (some s) c).isSome = true ∧
    (AddPodConditionPtr now (some s) c).isSome = true ∧
    (IsPodRunningPtr (some p)).isSome = true ∧
    (IsPodActivePtr (some p)).isSome = true ∧
    (IsPodReadyPtr (some p)).isSome = true := by
  intro now c s p ct
  exact ⟨rfl, rfl, rfl, rfl, rfl, rfl, rfl, rfl, rfl, rfl, rfl, rfl⟩
